import Mathlib

/-!
The allocation primitive `reallocate` of clox (src/clox/src/memory.c).

A shallow embedding of the single allocation primitive of clox together with
the part of the C library it calls (`free`, `realloc`, `exit`).

* Addresses are block identifiers (`Nat`, `0` is `NULL`); a heap maps every
  address to the bytes of the live block that starts there, if any.
* `size_t` values are `Nat`: `reallocate` only tests `newSize` against zero and
  passes it on, no arithmetic is done on sizes.
* `free` and `realloc` follow ISO C 7.22.3.  What `realloc` decides on its own
  (refusing, where the block goes, what the fresh bytes hold) is an explicit
  `Answer` argument, so every statement quantifies over all behaviours of the
  allocator.
* ISO C defines `free(ptr)` and `realloc(ptr, _)` only for a `ptr` that is
  null or live.  On any other address the call has no defined result: the
  library function yields `none`, and `reallocate` then ends as
  `Outcome.undefined` instead of returning or exiting.
* Every call of the C library is recorded in a trace, at the moment it is
  issued, also when its behaviour is undefined.
-/

set_option linter.unusedVariables false

namespace Clox

/-- An address handed out by the C library; `0` is the null pointer. -/
abbrev Ptr := Nat

/-- The null pointer. -/
def NULL : Ptr := 0

/-- One byte of block contents. -/
abbrev Byte := Fin 256

/-- The heap of the process: the contents of the live block at each address. -/
abbrev Heap := Ptr → Option (List Byte)

/-- A heap without any live block. -/
def Heap.empty : Heap := fun _ => none

/-- An address is live when it is not null and a block starts there. -/
def Heap.Live (h : Heap) (a : Ptr) : Prop := a ≠ NULL ∧ (h a).isSome = true

instance (h : Heap) (a : Ptr) : Decidable (h.Live a) := by
  unfold Heap.Live; exact inferInstance

/-- The heap with the block at `a` replaced by `bs`. -/
def Heap.set (h : Heap) (a : Ptr) (bs : List Byte) : Heap :=
  fun q => if q = a then some bs else h q

/-- What `free(ptr)` does to the heap: nothing for the null pointer, otherwise
the block at `ptr` stops being live. -/
def Heap.release (h : Heap) (ptr : Ptr) : Heap :=
  if ptr = NULL then h else fun q => if q = ptr then none else h q

/-- The bytes `realloc(ptr, _)` has to carry over: none for the null pointer
(it then behaves as `malloc`), otherwise those of the block at `ptr`. -/
def Heap.contents (h : Heap) (ptr : Ptr) : List Byte :=
  if ptr = NULL then [] else (h ptr).getD []

/-- A caller storing the bytes `pat` at the start of the block at `a`; the
store only happens inside a live block that is large enough. -/
def Heap.write (h : Heap) (a : Ptr) (pat : List Byte) : Heap :=
  match h a with
  | some bs => if pat.length ≤ bs.length then h.set a (pat ++ bs.drop pat.length) else h
  | none => h

/-- The contents of a block resized to `size` bytes: the old bytes as far as
they reach, the allocator's `fill` for the bytes that are new. -/
def resized (old : List Byte) (size : Nat) (fill : Nat → Byte) : List Byte :=
  (List.range size).map fun i => (old.get? i).getD (fill i)

/-- What the allocator decides for one `realloc` request. -/
inductive Answer where
  /-- The request cannot be satisfied. -/
  | refuse : Answer
  /-- The block goes to `addr`; `fill i` is the indeterminate value of byte `i`
  where it is new. -/
  | place (addr : Ptr) (fill : Nat → Byte) : Answer

/-- A placement is legal when the address is not null and is either the
address of the block being resized or not occupied. -/
def Heap.legal (h : Heap) (ptr addr : Ptr) : Bool :=
  decide (addr ≠ NULL) && (decide (addr = ptr) || (h addr).isNone)

/-- The effect of `realloc(ptr, size)` on the heap and its return value.  On refusal the
heap is untouched and the null pointer is returned; otherwise the old block
is given up and the resized one is live at the returned address.  An answer
that is not a legal placement is no answer of an allocator and counts as a
refusal. -/
def Heap.realloc (h : Heap) (a : Answer) (ptr : Ptr) (size : Nat) : Ptr × Heap :=
  match a with
  | .refuse => (NULL, h)
  | .place addr fill =>
    if h.legal ptr addr then
      (addr, (h.release ptr).set addr (resized (h.contents ptr) size fill))
    else (NULL, h)

/-- The addresses on which ISO C defines `free` and `realloc`: the null pointer
and the addresses of live blocks. -/
def Heap.valid (h : Heap) (ptr : Ptr) : Bool :=
  decide (ptr = NULL) || (h ptr).isSome

/-- A call of the C library heap interface. -/
inductive Call where
  | free (ptr : Ptr) : Call
  | realloc (ptr : Ptr) (size : Nat) : Call
  deriving DecidableEq, Repr

/-- The state of the process: its heap and the library calls made so far. -/
structure World where
  heap : Heap
  trace : List Call

/-- The C library `free`.  The call is recorded; on a null or live address it
returns (`some ()`) with the block given up, on any other address its
behaviour is undefined (`none`, the heap then carries no meaning and is left
as it was). -/
def free (ptr : Ptr) (w : World) : Option Unit × World :=
  if w.heap.valid ptr then
    (some (), { heap := w.heap.release ptr, trace := w.trace ++ [Call.free ptr] })
  else
    (none, { heap := w.heap, trace := w.trace ++ [Call.free ptr] })

/-- The C library `realloc`, answering with `a`.  The call is recorded; on a
null or live address it returns an address (`some`), on any other address its
behaviour is undefined (`none`, the heap then carries no meaning and is left
as it was). -/
def realloc (a : Answer) (ptr : Ptr) (size : Nat) (w : World) : Option Ptr × World :=
  if w.heap.valid ptr then
    (some (w.heap.realloc a ptr size).1,
     { heap := (w.heap.realloc a ptr size).2, trace := w.trace ++ [Call.realloc ptr size] })
  else
    (none, { heap := w.heap, trace := w.trace ++ [Call.realloc ptr size] })

/-- How a call ends: it returns an address to its caller, the process is
terminated through `exit(status)`, or a library call with undefined behaviour
was made and nothing is known about what follows. -/
inductive Outcome where
  | returned (address : Ptr) : Outcome
  | exited (status : Nat) : Outcome
  | undefined : Outcome
  deriving DecidableEq, Repr

/-- The function `reallocate` of memory.c:

    void *reallocate(void *pointer, size_t oldSize, size_t newSize) {
      if (!newSize) { free(pointer); return NULL; }
      void *result = realloc(pointer, newSize);
      if (result == NULL) exit(1);
      return result;
    }

A library call without a defined result ends the run as `Outcome.undefined`. -/
def reallocate (a : Answer) (pointer : Ptr) (oldSize newSize : Nat) (w : World) :
    Outcome × World :=
  if newSize = 0 then
    match free pointer w with
    | (some _, w1) => (Outcome.returned NULL, w1)
    | (none, w1) => (Outcome.undefined, w1)
  else
    match realloc a pointer newSize w with
    | (some result, w1) =>
      if result = NULL then (Outcome.exited 1, w1)
      else (Outcome.returned result, w1)
    | (none, w1) => (Outcome.undefined, w1)

/-! Facts about the heap model. -/

theorem resized_length (old : List Byte) (size : Nat) (fill : Nat → Byte) :
    (resized old size fill).length = size := by
  simp [resized]

theorem resized_get? (old : List Byte) (size : Nat) (fill : Nat → Byte) (i : Nat)
    (hi : i < size) (ho : i < old.length) : (resized old size fill)[i]? = old[i]? := by
  simp [resized, List.getElem?_map, List.getElem?_range hi, List.getElem?_eq_getElem ho]

theorem resized_take (old : List Byte) (size : Nat) (fill : Nat → Byte) (k : Nat)
    (hk : k ≤ size) (hk2 : k ≤ old.length) :
    (resized old size fill).take k = old.take k := by
  apply List.ext_getElem?
  intro i
  by_cases hi : i < k
  · rw [List.getElem?_take_of_lt hi, List.getElem?_take_of_lt hi]
    exact resized_get? old size fill i (by omega) (by omega)
  · have h1 : ((resized old size fill).take k).length ≤ i := by
      rw [List.length_take, resized_length]; omega
    have h2 : (old.take k).length ≤ i := by
      rw [List.length_take]; omega
    rw [List.getElem?_eq_none h1, List.getElem?_eq_none h2]

theorem resized_self (old : List Byte) (fill : Nat → Byte) :
    resized old old.length fill = old := by
  have h := resized_take old old.length fill old.length (le_refl _) (le_refl _)
  have hl := resized_length old old.length fill
  rw [List.take_of_length_le (by omega), List.take_of_length_le (le_refl _)] at h
  exact h

theorem Heap.realloc_placed (h : Heap) (a : Answer) (ptr : Ptr) (size : Nat)
    (hne : (h.realloc a ptr size).1 ≠ NULL) :
    ∃ addr fill, a = Answer.place addr fill ∧ addr ≠ NULL ∧
      h.realloc a ptr size =
        (addr, (h.release ptr).set addr (resized (h.contents ptr) size fill)) := by
  cases a with
  | refuse => simp [Heap.realloc] at hne
  | place addr fill =>
    by_cases hl : h.legal ptr addr = true
    · refine ⟨addr, fill, rfl, ?_, ?_⟩
      · simp [Heap.legal] at hl; exact hl.1
      · simp [Heap.realloc, hl]
    · simp [Heap.realloc, hl] at hne

theorem Heap.set_same (h : Heap) (a : Ptr) (bs : List Byte) : h.set a bs a = some bs := by
  simp [Heap.set]

theorem Heap.valid_iff (h : Heap) (ptr : Ptr) :
    h.valid ptr = true ↔ ptr = NULL ∨ h.Live ptr := by
  unfold Heap.valid Heap.Live
  by_cases hp : ptr = NULL
  · simp [hp]
  · simp [hp]

theorem free_valid (ptr : Ptr) (w : World) (hv : w.heap.valid ptr = true) :
    free ptr w =
      (some (), { heap := w.heap.release ptr, trace := w.trace ++ [Call.free ptr] }) := by
  simp [free, hv]

theorem realloc_valid (a : Answer) (ptr : Ptr) (size : Nat) (w : World)
    (hv : w.heap.valid ptr = true) :
    realloc a ptr size w =
      (some (w.heap.realloc a ptr size).1,
       { heap := (w.heap.realloc a ptr size).2,
         trace := w.trace ++ [Call.realloc ptr size] }) := by
  simp [realloc, hv]

theorem realloc_some (a : Answer) (ptr : Ptr) (size : Nat) (w : World) (r : Ptr)
    (hr : (realloc a ptr size w).1 = some r) :
    w.heap.valid ptr = true ∧ (w.heap.realloc a ptr size).1 = r := by
  by_cases hv : w.heap.valid ptr = true
  · rw [realloc_valid a ptr size w hv] at hr
    exact ⟨hv, Option.some.inj hr⟩
  · simp [realloc, hv] at hr

theorem realloc_trace (a : Answer) (ptr : Ptr) (size : Nat) (w : World) :
    (realloc a ptr size w).2.trace = w.trace ++ [Call.realloc ptr size] := by
  by_cases hv : w.heap.valid ptr = true
  · simp [realloc, hv]
  · simp [realloc, hv]

theorem free_trace (ptr : Ptr) (w : World) :
    (free ptr w).2.trace = w.trace ++ [Call.free ptr] := by
  by_cases hv : w.heap.valid ptr = true
  · simp [free, hv]
  · simp [free, hv]

theorem reallocate_zero (a : Answer) (pointer : Ptr) (oldSize : Nat) (w : World)
    (hv : w.heap.valid pointer = true) :
    reallocate a pointer oldSize 0 w = (Outcome.returned NULL, (free pointer w).2) := by
  simp [reallocate, free_valid pointer w hv]

theorem reallocate_zero_world (a : Answer) (pointer : Ptr) (oldSize : Nat) (w : World) :
    (reallocate a pointer oldSize 0 w).2 = (free pointer w).2 := by
  by_cases hv : w.heap.valid pointer = true
  · simp [reallocate, free, hv]
  · simp [reallocate, free, hv]

theorem reallocate_pos (a : Answer) (pointer : Ptr) (oldSize newSize : Nat) (w : World)
    (r : Ptr) (hn : 0 < newSize) (hr : (realloc a pointer newSize w).1 = some r)
    (hnz : r ≠ NULL) :
    reallocate a pointer oldSize newSize w =
      (Outcome.returned r, (realloc a pointer newSize w).2) := by
  have h0 : newSize ≠ 0 := by omega
  obtain ⟨hv, hh⟩ := realloc_some a pointer newSize w r hr
  subst hh
  simp [reallocate, h0, realloc_valid a pointer newSize w hv, hnz]

theorem reallocate_pos_null (a : Answer) (pointer : Ptr) (oldSize newSize : Nat) (w : World)
    (hn : 0 < newSize) (hr : (realloc a pointer newSize w).1 = some NULL) :
    reallocate a pointer oldSize newSize w =
      (Outcome.exited 1, (realloc a pointer newSize w).2) := by
  have h0 : newSize ≠ 0 := by omega
  obtain ⟨hv, hh⟩ := realloc_some a pointer newSize w NULL hr
  simp [reallocate, h0, realloc_valid a pointer newSize w hv, hh]

theorem reallocate_pos_undefined (a : Answer) (pointer : Ptr) (oldSize newSize : Nat)
    (w : World) (hn : 0 < newSize) (hr : (realloc a pointer newSize w).1 = none) :
    reallocate a pointer oldSize newSize w =
      (Outcome.undefined, (realloc a pointer newSize w).2) := by
  have h0 : newSize ≠ 0 := by omega
  by_cases hv : w.heap.valid pointer = true
  · rw [realloc_valid a pointer newSize w hv] at hr
    cases hr
  · simp [reallocate, h0, realloc, hv]

theorem Heap.write_live (h : Heap) (a : Ptr) (pat blk : List Byte)
    (hb : h a = some blk) (hl : pat.length ≤ blk.length) :
    h.write a pat a = some (pat ++ blk.drop pat.length) := by
  simp [Heap.write, hb, hl, Heap.set]

/-- The world used in the concrete checks: one live block of four bytes at
address 5, no library call made yet. -/
def sampleWorld : World :=
  { heap := Heap.empty.set 5 [1, 2, 3, 4], trace := [] }

/-- A world without live blocks and without library calls. -/
def emptyWorld : World := { heap := Heap.empty, trace := [] }

/-! The claims. -/

/-- C1, as stated, fails: `reallocate(5, 4, 0)` on a heap where 5 is not a live
block passes 5 to `free`, whose behaviour is then undefined; the call does not
return the null address. -/
theorem C1_dangling_pointer_counterexample :
    (reallocate Answer.refuse 5 4 0 emptyWorld).1 = Outcome.undefined ∧
      (reallocate Answer.refuse 5 4 0 emptyWorld).1 ≠ Outcome.returned NULL :=
  ⟨rfl, by decide⟩

/-- C1, amended: for every pointer that is null or a live block of the heap,
every oldSize and every disposition of the allocator, `reallocate(pointer,
oldSize, 0)` returns the null address and does not end in a process exit. -/
theorem C1_zero_size_returns_null (a : Answer) (pointer : Ptr) (oldSize : Nat) (w : World)
    (hvalid : pointer = NULL ∨ w.heap.Live pointer) :
    (reallocate a pointer oldSize 0 w).1 = Outcome.returned NULL ∧
      ∀ status, (reallocate a pointer oldSize 0 w).1 ≠ Outcome.exited status := by
  rw [reallocate_zero a pointer oldSize w ((Heap.valid_iff _ _).2 hvalid)]
  exact ⟨rfl, fun status h => by cases h⟩

/-- C1 at a concrete input: releasing the live block at 5. -/
theorem C1_zero_size_returns_null_witness :
    ((5 : Ptr) = NULL ∨ sampleWorld.heap.Live 5) ∧
      (reallocate Answer.refuse 5 4 0 sampleWorld).1 = Outcome.returned NULL ∧
      ∀ status, (reallocate Answer.refuse 5 4 0 sampleWorld).1 ≠ Outcome.exited status :=
  ⟨by decide, C1_zero_size_returns_null Answer.refuse 5 4 sampleWorld (by decide)⟩

/-- C2: for newSize > 0, when `realloc(pointer, newSize)` yields a non-null
address r, `reallocate(pointer, oldSize, newSize)` returns exactly r, r is not
null, and r is a live block of at least newSize bytes in the resulting heap. -/
theorem C2_success_returns_block (a : Answer) (pointer : Ptr) (oldSize newSize : Nat)
    (w : World) (r : Ptr) (hn : 0 < newSize)
    (hr : (realloc a pointer newSize w).1 = some r) (hnz : r ≠ NULL) :
    (reallocate a pointer oldSize newSize w).1 = Outcome.returned r ∧ r ≠ NULL ∧
      (reallocate a pointer oldSize newSize w).2.heap.Live r ∧
      ∃ bs, (reallocate a pointer oldSize newSize w).2.heap r = some bs ∧
        newSize ≤ bs.length := by
  rw [reallocate_pos a pointer oldSize newSize w r hn hr hnz]
  obtain ⟨hv, hh⟩ := realloc_some a pointer newSize w r hr
  obtain ⟨addr, fill, ha, haddr, hre⟩ :=
    Heap.realloc_placed w.heap a pointer newSize (by rw [hh]; exact hnz)
  have hra : r = addr := by rw [← hh, hre]
  have hblock : (realloc a pointer newSize w).2.heap r =
      some (resized (w.heap.contents pointer) newSize fill) := by
    rw [realloc_valid a pointer newSize w hv, hra]
    simp [hre, Heap.set]
  refine ⟨rfl, hnz, ⟨hnz, ?_⟩, _, hblock, ?_⟩
  · simp only [hblock, Option.isSome_some]
  · rw [resized_length]

/-- C2, the scenario of the specification: `reallocate(null, 0, 64)` on an empty
heap whose allocator places the block at address 1 returns address 1, which is
live and holds at least 64 bytes. -/
theorem C2_success_returns_block_witness :
    0 < 64 ∧ (realloc (Answer.place 1 fun _ => 0) NULL 64 emptyWorld).1 = some 1 ∧
      (1 : Ptr) ≠ NULL ∧
      (reallocate (Answer.place 1 fun _ => 0) NULL 0 64 emptyWorld).1 = Outcome.returned 1 ∧
      (1 : Ptr) ≠ NULL ∧
      (reallocate (Answer.place 1 fun _ => 0) NULL 0 64 emptyWorld).2.heap.Live 1 ∧
      ∃ bs, (reallocate (Answer.place 1 fun _ => 0) NULL 0 64 emptyWorld).2.heap 1 = some bs ∧
        64 ≤ bs.length :=
  ⟨by decide, rfl, by decide,
    C2_success_returns_block (Answer.place 1 fun _ => 0) NULL 0 64 emptyWorld 1
      (by decide) rfl (by decide)⟩

/-- C3: for newSize > 0, when `realloc(pointer, newSize)` yields the null
pointer, `reallocate(pointer, oldSize, newSize)` ends the process with exit
status exactly 1 and returns no address to the caller. -/
theorem C3_failure_exits_with_one (a : Answer) (pointer : Ptr) (oldSize newSize : Nat)
    (w : World) (hn : 0 < newSize) (hr : (realloc a pointer newSize w).1 = some NULL) :
    (reallocate a pointer oldSize newSize w).1 = Outcome.exited 1 ∧
      ∀ p, (reallocate a pointer oldSize newSize w).1 ≠ Outcome.returned p := by
  rw [reallocate_pos_null a pointer oldSize newSize w hn hr]
  exact ⟨rfl, fun p h => by cases h⟩

/-- C3 at a concrete input: a request for 8 more bytes for the block at 5 that
the allocator refuses ends the process with status 1. -/
theorem C3_failure_exits_with_one_witness :
    0 < 8 ∧ (realloc Answer.refuse 5 8 sampleWorld).1 = some NULL ∧
      (reallocate Answer.refuse 5 4 8 sampleWorld).1 = Outcome.exited 1 ∧
      ∀ p, (reallocate Answer.refuse 5 4 8 sampleWorld).1 ≠ Outcome.returned p :=
  ⟨by decide, rfl, C3_failure_exits_with_one Answer.refuse 5 4 8 sampleWorld (by decide) rfl⟩

/-- C4: when address is a live block of old_size > 0 bytes and the heap
satisfies a request for new_size > 0 bytes, `reallocate(address, old_size,
new_size)` returns the address of a block whose first min(old_size, new_size)
bytes are those of the original block, wherever the block ends up; with
old_size = new_size the whole contents are unchanged. -/
theorem C4_leading_bytes_preserved (a : Answer) (address : Ptr) (old_size new_size : Nat)
    (w : World) (bs : List Byte) (hlive : w.heap.Live address)
    (hbs : w.heap address = some bs) (hold : bs.length = old_size)
    (hopos : 0 < old_size) (hnpos : 0 < new_size)
    (hsucc : (realloc a address new_size w).1 ≠ some NULL) :
    ∃ r bs2, (reallocate a address old_size new_size w).1 = Outcome.returned r ∧
      (reallocate a address old_size new_size w).2.heap r = some bs2 ∧
      bs2.take (min old_size new_size) = bs.take (min old_size new_size) ∧
      (old_size = new_size → bs2 = bs) := by
  have hv : w.heap.valid address = true := (Heap.valid_iff _ _).2 (Or.inr hlive)
  have hra := realloc_valid a address new_size w hv
  have hne : (w.heap.realloc a address new_size).1 ≠ NULL := by
    intro h
    apply hsucc
    rw [hra, h]
  obtain ⟨addr, fill, ha, haddr, hre⟩ :=
    Heap.realloc_placed w.heap a address new_size hne
  have hr1 : (realloc a address new_size w).1 = some addr := by rw [hra, hre]
  rw [reallocate_pos a address old_size new_size w addr hnpos hr1 haddr]
  have hc : w.heap.contents address = bs := by
    simp [Heap.contents, hlive.1, hbs]
  refine ⟨addr, resized bs new_size fill, rfl, ?_, ?_, ?_⟩
  · rw [hra]
    simp [hre, Heap.set, hc]
  · exact resized_take bs new_size fill _ (Nat.min_le_right _ _)
      (by rw [hold]; exact Nat.min_le_left _ _)
  · intro he
    rw [← he, ← hold]
    exact resized_self bs fill

/-- C4 at a concrete input: growing the four-byte block at 5 to six bytes, the
allocator moving it to address 9, keeps the four bytes. -/
theorem C4_leading_bytes_preserved_witness :
    sampleWorld.heap.Live 5 ∧ sampleWorld.heap 5 = some [1, 2, 3, 4] ∧
      ([1, 2, 3, 4] : List Byte).length = 4 ∧ 0 < 4 ∧ 0 < 6 ∧
      (realloc (Answer.place 9 fun _ => 0) 5 6 sampleWorld).1 ≠ some NULL ∧
      ∃ r bs2, (reallocate (Answer.place 9 fun _ => 0) 5 4 6 sampleWorld).1 =
          Outcome.returned r ∧
        (reallocate (Answer.place 9 fun _ => 0) 5 4 6 sampleWorld).2.heap r = some bs2 ∧
        bs2.take (min 4 6) = ([1, 2, 3, 4] : List Byte).take (min 4 6) ∧
        (4 = 6 → bs2 = [1, 2, 3, 4]) :=
  ⟨by decide, rfl, rfl, by decide, by decide, by decide,
    C4_leading_bytes_preserved (Answer.place 9 fun _ => 0) 5 4 6 sampleWorld [1, 2, 3, 4]
      (by decide) rfl rfl (by decide) (by decide) (by decide)⟩

/-- C5: for every heap and every live address a, after `reallocate(a, oldSize,
0)` the call has returned null, a is no longer a live block, and every other
address holds exactly the block (size and contents) it held before. -/
theorem C5_release_invalidates_only_target (an : Answer) (a : Ptr) (oldSize : Nat)
    (w : World) (hlive : w.heap.Live a) :
    (reallocate an a oldSize 0 w).1 = Outcome.returned NULL ∧
      (reallocate an a oldSize 0 w).2.heap a = none ∧
      ¬ (reallocate an a oldSize 0 w).2.heap.Live a ∧
      ∀ b, b ≠ a → (reallocate an a oldSize 0 w).2.heap b = w.heap b := by
  have hv : w.heap.valid a = true := (Heap.valid_iff _ _).2 (Or.inr hlive)
  rw [reallocate_zero an a oldSize w hv, free_valid a w hv]
  refine ⟨rfl, ?_, ?_, ?_⟩
  · simp [Heap.release, hlive.1]
  · intro h
    have := h.2
    simp [Heap.release, hlive.1] at this
  · intro b hb
    simp [Heap.release, hlive.1, hb]

/-- C5 at a concrete input: releasing the live block at 5. -/
theorem C5_release_invalidates_only_target_witness :
    sampleWorld.heap.Live 5 ∧
      (reallocate Answer.refuse 5 4 0 sampleWorld).1 = Outcome.returned NULL ∧
      (reallocate Answer.refuse 5 4 0 sampleWorld).2.heap 5 = none ∧
      ¬ (reallocate Answer.refuse 5 4 0 sampleWorld).2.heap.Live 5 ∧
      ∀ b, b ≠ 5 → (reallocate Answer.refuse 5 4 0 sampleWorld).2.heap b = sampleWorld.heap b :=
  ⟨by decide, C5_release_invalidates_only_target Answer.refuse 5 4 sampleWorld (by decide)⟩

/-- C6: releasing an absent address is a no-op: for every heap state and every
oldSize, `reallocate(null, oldSize, 0)` returns null and leaves the heap (live
blocks, sizes, contents) exactly as it was. -/
theorem C6_release_null_is_noop (a : Answer) (oldSize : Nat) (w : World) :
    (reallocate a NULL oldSize 0 w).1 = Outcome.returned NULL ∧
      (reallocate a NULL oldSize 0 w).2.heap = w.heap := by
  have hv : w.heap.valid NULL = true := (Heap.valid_iff _ _).2 (Or.inl rfl)
  rw [reallocate_zero a NULL oldSize w hv, free_valid NULL w hv]
  exact ⟨rfl, by simp [Heap.release]⟩

/-- C7: growth-then-shrink round trip.  For N > 0 and M ≤ N, when the heap
satisfies the request for N bytes, `reallocate(null, 0, N)` returns a non-null p;
after a pattern of M bytes is stored at the start of p, `reallocate(p, N, M)`
returns null when M = 0, and when M > 0 and the heap satisfies the request it
returns an address q whose block starts with the M bytes of the pattern. -/
theorem C7_grow_then_shrink_keeps_pattern (a1 a2 : Answer) (N M : Nat) (pat : List Byte)
    (w : World) (hN : 0 < N) (hM : M ≤ N) (hpat : pat.length = M)
    (h1 : (realloc a1 NULL N w).1 ≠ some NULL) :
    ∃ p w1, reallocate a1 NULL 0 N w = (Outcome.returned p, w1) ∧ p ≠ NULL ∧
      (∃ stored, w1.heap.write p pat p = some stored ∧ stored.take M = pat) ∧
      (M = 0 →
        (reallocate a2 p N M { heap := w1.heap.write p pat, trace := w1.trace }).1 =
          Outcome.returned NULL) ∧
      (0 < M →
        (realloc a2 p M { heap := w1.heap.write p pat, trace := w1.trace }).1 ≠ some NULL →
        ∃ q bs,
          (reallocate a2 p N M { heap := w1.heap.write p pat, trace := w1.trace }).1 =
            Outcome.returned q ∧
          (reallocate a2 p N M { heap := w1.heap.write p pat, trace := w1.trace }).2.heap q =
            some bs ∧
          bs.take M = pat) := by
  have hv0 : w.heap.valid NULL = true := (Heap.valid_iff _ _).2 (Or.inl rfl)
  have hra := realloc_valid a1 NULL N w hv0
  have hne : (w.heap.realloc a1 NULL N).1 ≠ NULL := by
    intro h
    apply h1
    rw [hra, h]
  obtain ⟨addr, fill, ha, haddr, hre⟩ := Heap.realloc_placed w.heap a1 NULL N hne
  have hp : (realloc a1 NULL N w).1 = some addr := by rw [hra, hre]
  have hblk : (realloc a1 NULL N w).2.heap addr = some (resized [] N fill) := by
    rw [hra]
    simp [hre, Heap.set, Heap.contents]
  have hlen : pat.length ≤ (resized [] N fill).length := by
    rw [resized_length]; omega
  have hw := Heap.write_live _ addr pat _ hblk hlen
  have htake : (pat ++ (resized [] N fill).drop pat.length).take M = pat := by
    rw [← hpat]; simp
  have hv2 : ((realloc a1 NULL N w).2.heap.write addr pat).valid addr = true := by
    simp [Heap.valid, hw]
  refine ⟨addr, (realloc a1 NULL N w).2, ?_, haddr, ⟨_, hw, htake⟩, ?_, ?_⟩
  · exact reallocate_pos a1 NULL 0 N w addr hN hp haddr
  · intro h0
    subst h0
    rw [reallocate_zero a2 addr N _ hv2]
  · intro hMpos h2
    have hrb := realloc_valid a2 addr M
      { heap := (realloc a1 NULL N w).2.heap.write addr pat,
        trace := (realloc a1 NULL N w).2.trace } hv2
    have hne2 : (((realloc a1 NULL N w).2.heap.write addr pat).realloc a2 addr M).1 ≠ NULL := by
      intro h
      apply h2
      rw [hrb, h]
    obtain ⟨addr2, fill2, ha2, haddr2, hre2⟩ := Heap.realloc_placed _ a2 addr M hne2
    have hq : (realloc a2 addr M
        { heap := (realloc a1 NULL N w).2.heap.write addr pat,
          trace := (realloc a1 NULL N w).2.trace }).1 = some addr2 := by
      rw [hrb, hre2]
    rw [reallocate_pos a2 addr N M _ addr2 hMpos hq haddr2]
    have hc : ((realloc a1 NULL N w).2.heap.write addr pat).contents addr =
        pat ++ (resized [] N fill).drop pat.length := by
      have hnn : ¬ addr = NULL := haddr
      simp only [Heap.contents, hnn, if_false, hw, Option.getD_some]
    refine ⟨addr2, resized (pat ++ (resized [] N fill).drop pat.length) M fill2, rfl, ?_, ?_⟩
    · rw [hrb]
      simp only
      rw [hre2, hc]
      exact Heap.set_same _ _ _
    · rw [resized_take _ M fill2 M (le_refl _) (by simp [resized_length]; omega)]
      exact htake

/-- C7 at a concrete input: allocate 4 bytes (placed at 3), store the pattern
7, 8 in the first two bytes, shrink to 2 bytes (moved to 6). -/
theorem C7_grow_then_shrink_keeps_pattern_witness :
    0 < 4 ∧ 2 ≤ 4 ∧ ([7, 8] : List Byte).length = 2 ∧
      (realloc (Answer.place 3 fun _ => 0) NULL 4 emptyWorld).1 ≠ some NULL ∧
      ∃ p w1, reallocate (Answer.place 3 fun _ => 0) NULL 0 4 emptyWorld =
          (Outcome.returned p, w1) ∧ p ≠ NULL ∧
        (∃ stored, w1.heap.write p [7, 8] p = some stored ∧ stored.take 2 = [7, 8]) ∧
        (2 = 0 →
          (reallocate (Answer.place 6 fun _ => 0) p 4 2
            { heap := w1.heap.write p [7, 8], trace := w1.trace }).1 =
            Outcome.returned NULL) ∧
        (0 < 2 →
          (realloc (Answer.place 6 fun _ => 0) p 2
            { heap := w1.heap.write p [7, 8], trace := w1.trace }).1 ≠ some NULL →
          ∃ q bs,
            (reallocate (Answer.place 6 fun _ => 0) p 4 2
              { heap := w1.heap.write p [7, 8], trace := w1.trace }).1 =
              Outcome.returned q ∧
            (reallocate (Answer.place 6 fun _ => 0) p 4 2
              { heap := w1.heap.write p [7, 8], trace := w1.trace }).2.heap q = some bs ∧
            bs.take 2 = [7, 8]) :=
  ⟨by decide, by decide, rfl, by decide,
    C7_grow_then_shrink_keeps_pattern (Answer.place 3 fun _ => 0) (Answer.place 6 fun _ => 0)
      4 2 [7, 8] emptyWorld (by decide) (by decide) rfl (by decide)⟩

/-- C9: every call of `reallocate` makes exactly one call of the C library heap
interface: `free(pointer)` when newSize = 0, `realloc(pointer, newSize)` when
newSize > 0; the call made is never a `realloc` with requested size 0. -/
theorem C9_one_library_call (a : Answer) (pointer : Ptr) (oldSize newSize : Nat)
    (w : World) :
    ∃ c, (reallocate a pointer oldSize newSize w).2.trace = w.trace ++ [c] ∧
      (newSize = 0 → c = Call.free pointer) ∧
      (0 < newSize → c = Call.realloc pointer newSize) ∧
      ∀ p, c ≠ Call.realloc p 0 := by
  by_cases h0 : newSize = 0
  · subst h0
    rw [reallocate_zero_world, free_trace]
    exact ⟨Call.free pointer, rfl, fun _ => rfl, fun h => absurd h (by decide),
      fun p h => by cases h⟩
  · refine ⟨Call.realloc pointer newSize, ?_, fun h => absurd h h0, fun _ => rfl, ?_⟩
    · have hw : (reallocate a pointer oldSize newSize w).2 =
          (realloc a pointer newSize w).2 := by
        cases h : (realloc a pointer newSize w).1 with
        | none => rw [reallocate_pos_undefined a pointer oldSize newSize w (by omega) h]
        | some r =>
          by_cases hr : r = NULL
          · rw [hr] at h
            rw [reallocate_pos_null a pointer oldSize newSize w (by omega) h]
          · rw [reallocate_pos a pointer oldSize newSize w r (by omega) h hr]
      rw [hw, realloc_trace]
    · intro p h
      injection h with _ hs
      exact h0 hs

/-- C9 at concrete inputs: a resize to 8 bytes records one `realloc(5, 8)`. -/
theorem C9_one_library_call_witness :
    ∃ c, (reallocate Answer.refuse 5 4 8 sampleWorld).2.trace = sampleWorld.trace ++ [c] ∧
      c = Call.realloc 5 8 :=
  (C9_one_library_call Answer.refuse 5 4 8 sampleWorld).elim
    fun c hc => ⟨c, hc.1, hc.2.2.1 (by decide)⟩

/-- C10: oldSize does not influence the operation: for every pointer, newSize,
heap and answer of the allocator, two calls that differ only in oldSize have the
same outcome (returned address or exit) and the same resulting state, the
recorded library call included, which therefore does not depend on oldSize. -/
theorem C10_old_size_ignored (a : Answer) (pointer : Ptr) (oldSize1 oldSize2 newSize : Nat)
    (w : World) :
    reallocate a pointer oldSize1 newSize w = reallocate a pointer oldSize2 newSize w := rfl

end Clox
